import Mathlib

/-!
Verification development for the MapyChat-web request pipeline:
the content guard (src/lib/nsfwGuard.ts) and the edge proxy route
(rate limiter, message coercer, token budget, POST orchestration).
Strings are modelled as lists of characters; every regular expression of
the source is embedded as a decidable scanner with JavaScript test
semantics (a match exists somewhere in the string).
-/

set_option maxRecDepth 1000000

abbrev Str := List Char

/-- JavaScript word character, the class backslash-w: ASCII letters, digits
and underscore.  Used for the word-boundary assertions of the source
regular expressions. -/
def isWordChar (c : Char) : Bool :=
  ('a' ≤ c && c ≤ 'z') || ('A' ≤ c && c ≤ 'Z') || ('0' ≤ c && c ≤ '9') || c = '_'

/-- JavaScript whitespace, the class backslash-s: space, tab, line and page
breaks, no-break space, the Unicode space separators, and the BOM. -/
def isJsSpace (c : Char) : Bool :=
  c = ' ' || c = '\t' || c = '\n' || c = '\r' ||
  c.toNat = 0x0b || c.toNat = 0x0c || c.toNat = 0xa0 || c.toNat = 0x1680 ||
  (0x2000 ≤ c.toNat && c.toNat ≤ 0x200a) ||
  c.toNat = 0x2028 || c.toNat = 0x2029 || c.toNat = 0x202f ||
  c.toNat = 0x205f || c.toNat = 0x3000 || c.toNat = 0xfeff

/-- ASCII digit, the class backslash-d. -/
def isAsciiDigit (c : Char) : Bool := '0' ≤ c && c ≤ '9'

/-- From isLetter in nsfwGuard.ts: the test of the regex class [a-z] on a
single character (lower-case ASCII letters only). -/
def isLetterCh (c : Char) : Bool := 'a' ≤ c && c ≤ 'z'

/-- ASCII lower-casing of one character plus the accented Latin capitals
that can occur in the guard lexicon domain.  Finitization of the
JavaScript toLowerCase used by the source on free text. -/
def jsToLower (c : Char) : Char :=
  if 'A' ≤ c && c ≤ 'Z' then Char.ofNat (c.toNat + 32)
  else if c = 'Á' then 'á' else if c = 'É' then 'é' else if c = 'Í' then 'í'
  else if c = 'Ó' then 'ó' else if c = 'Ú' then 'ú' else if c = 'Ü' then 'ü'
  else if c = 'Ñ' then 'ñ' else c

/-- NFKD decomposition followed by removal of the combining marks
U+0300 to U+036F, finitized to the accented Latin letters relevant to the
guard lexicon: an accented letter decomposes to its base letter (the
combining mark being stripped), a standalone combining mark is removed,
any other character decomposes to itself. -/
def nfkdStrip (c : Char) : Str :=
  if c = 'á' then ['a'] else if c = 'é' then ['e'] else if c = 'í' then ['i']
  else if c = 'ó' then ['o'] else if c = 'ú' then ['u'] else if c = 'ü' then ['u']
  else if c = 'ñ' then ['n']
  else if 0x300 ≤ c.toNat && c.toNat ≤ 0x36f then []
  else [c]

/-- From applyLeetspeak in nsfwGuard.ts, the per-character substitution
with the adjacency flag made explicit. -/
def applyLeetspeakChar (nearLetters : Bool) (c : Char) : Char :=
  if c = '1' then (if nearLetters then 'i' else c)
  else if c = '!' then (if nearLetters then 'i' else c)
  else if c = '3' then (if nearLetters then 'e' else c)
  else if c = '0' then (if nearLetters then 'o' else c)
  else if c = '$' then (if nearLetters then 's' else c)
  else if c = '@' then 'a'
  else c

/-- From applyLeetspeak in nsfwGuard.ts.  The replacer callback is written
with parameter list (match, _group, offset), but the regular expression
has no capture group, so at run time JavaScript binds _group to the
numeric offset and binds the variable named offset to the whole input
string.  The expressions input[offset - 1] and input[offset + 1] then
index the string with NaN or with a non-index key, yield undefined, and
prev and next are always the empty string; isLetter of the empty string is
false, hence nearLetters is false at every match.  The function therefore
leaves the characters 1 ! 3 0 $ unchanged and folds @ to a at every
occurrence. -/
def applyLeetspeak (input : Str) : Str :=
  input.map (applyLeetspeakChar false)

/-- Modelled from the spec: the leetspeak folding as the specification
describes it (and as the dead adjacency branch of applyLeetspeak was
evidently meant to behave): a substitution character is folded exactly
when the character immediately before or immediately after it in the
input is a letter, while the at sign folds unconditionally. -/
def applyLeetspeakSpecGo (prev : Option Char) : Str → Str
  | [] => []
  | c :: rest =>
    let prevLetter := match prev with
      | some p => isLetterCh p
      | none => false
    let nextLetter := match rest with
      | d :: _ => isLetterCh d
      | [] => false
    applyLeetspeakChar (prevLetter || nextLetter) c :: applyLeetspeakSpecGo (some c) rest

/-- Modelled from the spec: leetspeak folding with the adjacency test
actually applied, see applyLeetspeakSpecGo. -/
def applyLeetspeakSpec (input : Str) : Str :=
  applyLeetspeakSpecGo none input

/-- From normalizeText in nsfwGuard.ts: lower-case, NFKD with combining
marks stripped, then the leetspeak pass. -/
def normalizeText (text : Str) : Str :=
  applyLeetspeak ((text.map jsToLower).flatMap nfkdStrip)

/-- Word boundary on the left of a match that begins with a word
character: holds at the start of the string or after a non-word
character. -/
def boundaryBefore (prev : Option Char) : Bool :=
  match prev with
  | none => true
  | some c => !isWordChar c

/-- Word boundary on the right of a match that ends with a word character:
holds at the end of the string or before a non-word character. -/
def boundaryAfter (s : Str) : Bool :=
  match s with
  | [] => true
  | c :: _ => !isWordChar c

/-- Drop the literal pattern w from the front of s, or fail. -/
def dropLead (w : Str) (s : Str) : Option Str :=
  match w, s with
  | [], rest => some rest
  | _ :: _, [] => none
  | a :: as, b :: bs => if a = b then dropLead as bs else none

/-- Remainders of s after consuming zero or more whitespace characters
(all the splits the regex piece backslash-s-star can produce). -/
def wsRuns : Str → List Str
  | [] => [[]]
  | c :: rest => (c :: rest) :: (if isJsSpace c then wsRuns rest else [])

/-- Remainders of s after consuming one or more decimal digits
(the splits of the regex piece backslash-d-plus). -/
def digitRuns : Str → List Str
  | [] => []
  | c :: rest => if isAsciiDigit c then rest :: digitRuns rest else []

/-- One element of a compiled alternative of a source regular expression:
a literal, an optional whitespace run, a mandatory whitespace run, or a
mandatory digit run. -/
inductive Tok where
  | lit (w : Str)
  | ws0
  | ws1
  | digits1
deriving DecidableEq

/-- All remainders of s after consuming one token. -/
def consumeTok : Tok → Str → List Str
  | .lit w, s => (dropLead w s).toList
  | .ws0, s => wsRuns s
  | .ws1, s =>
    match s with
    | c :: rest => if isJsSpace c then wsRuns rest else []
    | [] => []
  | .digits1, s => digitRuns s

/-- All remainders of s after consuming a whole token sequence. -/
def consumeSeq : List Tok → Str → List Str
  | [], s => [s]
  | t :: ts, s => (consumeTok t s).flatMap (consumeSeq ts)

/-- A word-bounded alternative matches at this position: boundary on the
left, some token sequence consumed, boundary on the right. -/
def altsAt (alts : List (List Tok)) (prev : Option Char) (s : Str) : Bool :=
  boundaryBefore prev &&
    alts.any (fun toks => (consumeSeq toks s).any boundaryAfter)

/-- Scan every position of the string, tracking the previous character for
the boundary assertion, and test the position matcher there. -/
def scanFrom (p : Option Char → Str → Bool) (prev : Option Char) : Str → Bool
  | [] => p prev []
  | c :: rest => p prev (c :: rest) || scanFrom p (some c) rest

/-- JavaScript regex test semantics: the pattern matches somewhere. -/
def scanStr (p : Option Char → Str → Bool) (s : Str) : Bool :=
  scanFrom p none s

/-- The alternatives of UNDERAGE_LEX in nsfwGuard.ts, fully expanded. -/
def underageLexAlts : List (List Tok) :=
  [[.lit "menor".data], [.lit "menores".data],
   [.lit "nino".data], [.lit "nina".data], [.lit "ninos".data], [.lit "ninas".data],
   [.lit "adolescente".data], [.lit "adolescentes".data],
   [.lit "teen".data], [.lit "teens".data], [.lit "teenager".data], [.lit "teenagers".data],
   [.lit "infante".data], [.lit "infantes".data],
   [.lit "preadolecente".data], [.lit "preadolecentes".data],
   [.lit "prepubescente".data], [.lit "prepubescentes".data],
   [.lit "loli".data], [.lit "shota".data]]

/-- From UNDERAGE_LEX in nsfwGuard.ts. -/
def testUnderageLex (s : Str) : Bool :=
  scanStr (altsAt underageLexAlts) s

/-- The number alternatives of UNDERAGE_AGE: 1[0-7] or [1-9]. -/
def underageNums : List Str :=
  ["10".data, "11".data, "12".data, "13".data, "14".data, "15".data, "16".data, "17".data,
   "1".data, "2".data, "3".data, "4".data, "5".data, "6".data, "7".data, "8".data, "9".data]

/-- The age-unit alternatives of UNDERAGE_AGE. -/
def underageUnits : List Str :=
  ["años".data, "anos".data, "years".data, "year".data, "yrs".data, "yr".data,
   "y/o".data, "yo".data]

/-- The alternatives of UNDERAGE_AGE in nsfwGuard.ts: a number 1 to 17,
optional whitespace, an age unit, and an optional de-edad suffix, all
word-bounded. -/
def underageAgeAlts : List (List Tok) :=
  (underageNums.flatMap fun n =>
    underageUnits.flatMap fun u =>
      [[.lit n, .ws0, .lit u],
       [.lit n, .ws0, .lit u, .ws0, .lit "de".data, .ws0, .lit "edad".data]])

/-- From UNDERAGE_AGE in nsfwGuard.ts. -/
def testUnderageAge (s : Str) : Bool :=
  scanStr (altsAt underageAgeAlts) s

/-- The alternatives of UNDERAGE_EXCLUSIONS in nsfwGuard.ts. -/
def underageExclAlts : List (List Tok) :=
  [[.lit "hace".data, .ws0, .digits1, .ws0, .lit "anos".data],
   [.lit "anos".data, .ws0, .lit "de".data, .ws0, .lit "experiencia".data],
   [.lit "anos".data, .ws0, .lit "despues".data],
   [.lit "anos".data, .ws0, .lit "atras".data],
   [.lit "anos".data, .ws0, .lit "antiguedad".data],
   [.lit "antiguedad".data, .ws0, .digits1, .ws0, .lit "anos".data]]

/-- From UNDERAGE_EXCLUSIONS in nsfwGuard.ts. -/
def testUnderageExcl (s : Str) : Bool :=
  scanStr (altsAt underageExclAlts) s

/-- The alternatives of HARD_RULES in nsfwGuard.ts. -/
def hardRuleAlts : List (List Tok) :=
  [[.lit "incesto".data], [.lit "zoofilia".data], [.lit "bestialidad".data],
   [.lit "violencia".data, .ws1, .lit "sexual".data],
   [.lit "violacion".data], [.lit "rape".data], [.lit "trata".data],
   [.lit "explotacion".data], [.lit "sextortion".data]]

/-- From HARD_RULES in nsfwGuard.ts. -/
def testHardRules (s : Str) : Bool :=
  scanStr (altsAt hardRuleAlts) s

/-- The alternatives of DOXXING in nsfwGuard.ts. -/
def doxxingAlts : List (List Tok) :=
  [[.lit "doxeo".data], [.lit "doxear".data], [.lit "doxxing".data],
   [.lit "filtrar".data, .ws1, .lit "datos".data],
   [.lit "exponer".data, .ws1, .lit "datos".data]]

/-- From DOXXING in nsfwGuard.ts. -/
def testDoxxing (s : Str) : Bool :=
  scanStr (altsAt doxxingAlts) s

/-- The literal prefixes of the URL alternative of REAL_LIKENESS:
http or https, optional www dot, one of the five platform hosts,
dot com slash. -/
def likenessUrlHeads : List Str :=
  (["http://".data, "https://".data].flatMap fun scheme =>
    (["".data, "www.".data].flatMap fun w =>
      ["instagram".data, "facebook".data, "tiktok".data, "x".data, "twitter".data].map
        fun host => scheme ++ w ++ host ++ ".com/".data))

/-- From REAL_LIKENESS in nsfwGuard.ts: an at sign followed by a word
character, or a social-platform URL followed by at least one non-space
character.  No word-boundary assertions; case-sensitive, applied to the
original text. -/
def likenessAt (s : Str) : Bool :=
  (match s with
   | '@' :: c :: _ => isWordChar c
   | _ => false) ||
  likenessUrlHeads.any (fun h =>
    match dropLead h s with
    | some (c :: _) => !isJsSpace c
    | _ => false)

/-- From REAL_LIKENESS in nsfwGuard.ts, test semantics. -/
def testRealLikeness (s : Str) : Bool :=
  scanStr (fun _ rest => likenessAt rest) s

/-- The alternatives of NSFW_TERMS in nsfwGuard.ts. -/
def nsfwTermAlts : List (List Tok) :=
  [[.lit "sex".data], [.lit "sexo".data], [.lit "porn".data], [.lit "porno".data],
   [.lit "desnudo".data], [.lit "desnudos".data], [.lit "erot".data],
   [.lit "fetich".data], [.lit "xxx".data]]

/-- From NSFW_TERMS in nsfwGuard.ts. -/
def testNsfwTerms (s : Str) : Bool :=
  scanStr (altsAt nsfwTermAlts) s

/-- The five distinct violation messages raised by guardOrThrow. -/
def msgUnderageLex : Str :=
  "Lo siento, eso viola nuestras reglas de contenido seguro (referencia a menores).".data

/-- Violation message of the age rule. -/
def msgUnderageAge : Str :=
  "Lo siento, eso viola nuestras reglas de contenido seguro (referencia etaria a menores).".data

/-- Violation message of the hard-prohibited rule. -/
def msgHardRules : Str :=
  "Lo siento, eso viola nuestras reglas de contenido seguro (contenido hard prohibido).".data

/-- Violation message of the doxxing rule. -/
def msgDoxxing : Str :=
  "Lo siento, eso viola nuestras reglas de contenido seguro (doxxing).".data

/-- Violation message of the real-likeness rule. -/
def msgLikeness : Str :=
  "Lo siento, eso viola nuestras reglas de contenido seguro (likeness real en contexto NSFW).".data

/-- From guardOrThrow in nsfwGuard.ts.  The thrown error is modelled as
returning some message; a normal return is none.  The rules run in the
source order and the first match wins.  The likeness rule tests the
original text, all other rules the normalized text. -/
def guardOrThrow (text : Str) : Option Str :=
  let normalized := normalizeText text
  if testUnderageLex normalized then some msgUnderageLex
  else if testUnderageAge normalized && !testUnderageExcl normalized then some msgUnderageAge
  else if testHardRules normalized then some msgHardRules
  else if testDoxxing normalized then some msgDoxxing
  else if testRealLikeness text && testNsfwTerms normalized then some msgLikeness
  else none

/-- Decidable equality for the Except results of the coercion layer. -/
instance exceptDecEq {e a : Type} [DecidableEq e] [DecidableEq a] :
    DecidableEq (Except e a) := fun x y =>
  match x, y with
  | .error u, .error v =>
    if h : u = v then .isTrue (by rw [h]) else .isFalse (by simp [h])
  | .error _, .ok _ => .isFalse (by simp)
  | .ok _, .error _ => .isFalse (by simp)
  | .ok u, .ok v =>
    if h : u = v then .isTrue (by rw [h]) else .isFalse (by simp [h])

/-- Detail levels of an image part, from the DetailLevel type of the
route. -/
inductive DetailLevel where
  | auto
  | low
  | high
deriving DecidableEq

/-- A coerced message part, from the MessagePart union of the route. -/
inductive MessagePart where
  | text (text : Str)
  | image (url : Str) (detail : DetailLevel)
deriving DecidableEq

/-- Message content: a plain string or a part list, from MessageContent. -/
inductive MessageContent where
  | str (s : Str)
  | parts (ps : List MessagePart)
deriving DecidableEq

/-- Message roles, from the ChatMessage type of the route. -/
inductive Role where
  | system
  | user
  | assistant
deriving DecidableEq

/-- A coerced chat message, from the ChatMessage type of the route. -/
structure ChatMessage where
  role : Role
  content : MessageContent
deriving DecidableEq

/-- The image_url object of an incoming part; url and detail may each be
absent.  Non-string field values throw a TypeError in the source and are
outside the model. -/
structure RawImageUrl where
  url : Option Str
  detail : Option Str
deriving DecidableEq

/-- An incoming message part before coercion: a text part, an image part
whose image_url object may be missing, a part with an unknown type tag, or
a value that is not an object at all. -/
inductive RawPart where
  | textPart (text : Str)
  | imagePart (imageUrl : Option RawImageUrl)
  | unknownPart
  | badPart
deriving DecidableEq

/-- Incoming message content: a string, an array of parts, or some other
value. -/
inductive RawContent where
  | str (s : Str)
  | parts (ps : List RawPart)
  | other
deriving DecidableEq

/-- An incoming message before coercion; a role value that is not one of
the three literal strings is modelled by a string that fails the
comparison, an absent or non-string role by none. -/
structure RawMessage where
  role : Option Str
  content : RawContent
deriving DecidableEq

/-- An element of the incoming messages array: an object or not. -/
inductive RawInput where
  | msg (m : RawMessage)
  | notObject
deriving DecidableEq

/-- From sanitizeTextSegment in the route: remove the control characters
of the class x00 to x08, x0b, x0c, x0e to x1f, x7f to x9f (tab, line feed
and carriage return survive). -/
def sanitizeTextSegment (value : Str) : Str :=
  value.filter (fun c =>
    !(c.toNat ≤ 0x08 || c.toNat = 0x0b || c.toNat = 0x0c ||
      (0x0e ≤ c.toNat && c.toNat ≤ 0x1f) || (0x7f ≤ c.toNat && c.toNat ≤ 0x9f)))

/-- JavaScript string trim: drop whitespace from both ends. -/
def jsTrim (s : Str) : Str :=
  ((s.dropWhile isJsSpace).reverse.dropWhile isJsSpace).reverse

/-- From sanitizePrompt in the route: remove the control characters x00 to
x1f and x7f to x9f, then trim. -/
def sanitizePrompt (value : Str) : Str :=
  jsTrim (value.filter (fun c =>
    !(c.toNat ≤ 0x1f || (0x7f ≤ c.toNat && c.toNat ≤ 0x9f))))

/-- Lower-case a whole string, for the case-insensitive comparisons of the
route (normalizeDetail and the data-URL pattern). -/
def lowerStr (s : Str) : Str := s.map jsToLower

/-- From normalizeDetail in the route: a falsy (absent or empty) detail
yields auto; otherwise the lower-cased value is looked up in the detail
enumeration and any miss yields auto. -/
def normalizeDetail (detail : Option Str) : DetailLevel :=
  match detail with
  | none => .auto
  | some d =>
    if d = [] then .auto
    else
      let lowered := lowerStr d
      if lowered = "auto".data then .auto
      else if lowered = "low".data then .low
      else if lowered = "high".data then .high
      else .auto

/-- Modelled check for isHttpUrl of the route, which parses with the URL
constructor and accepts protocol http or https.  The parser is finitized:
a URL is accepted when, after case-insensitive matching of the scheme
prefix, a nonempty remainder (the host part) follows. -/
def isHttpUrl (u : Str) : Bool :=
  (match dropLead "http://".data (lowerStr u) with
   | some (_ :: _) => true
   | _ => false) ||
  (match dropLead "https://".data (lowerStr u) with
   | some (_ :: _) => true
   | _ => false)

/-- Characters admitted by the payload class of DATA_URL_PATTERN,
case-insensitive: letters, digits, plus, slash, equals, carriage return
and line feed. -/
def isB64Char (c : Char) : Bool :=
  ('a' ≤ c && c ≤ 'z') || ('A' ≤ c && c ≤ 'Z') || ('0' ≤ c && c ≤ '9') ||
  c = '+' || c = '/' || c = '=' || c = '\r' || c = '\n'

/-- Padding count of a stripped base64 string: 2 for a double equals
suffix, 1 for a single equals, else 0. -/
def b64Padding (b : Str) : Nat :=
  match b.reverse with
  | c1 :: c2 :: _ => if c1 = '=' then (if c2 = '=' then 2 else 1) else 0
  | [c1] => if c1 = '=' then 1 else 0
  | [] => 0

/-- From getDataUrlPayload in the route: the byte count computed from the
whitespace-stripped base64 text, floor of length over four times three,
minus the padding.  The subtraction is integer subtraction, as in
JavaScript. -/
def dataUrlBytes (rawBase64 : Str) : Int :=
  let base64 := rawBase64.filter (fun c => !isJsSpace c)
  (((base64.length) / 4) * 3 : Int) - (b64Padding base64 : Int)

/-- Result of getDataUrlPayload: lower-cased mime and decoded byte
count. -/
structure DataUrlPayload where
  mime : Str
  bytes : Int
deriving DecidableEq

/-- From getDataUrlPayload and DATA_URL_PATTERN in the route: the anchored
case-insensitive pattern data colon image slash png-or-jpeg-or-jpg
semicolon base64 comma followed by a nonempty payload drawn from the
base64 class. -/
def getDataUrlPayload (url : Str) : Option DataUrlPayload :=
  let low := lowerStr url
  let tryFor := fun (mime : Str) =>
    match dropLead ("data:image/".data ++ mime ++ ";base64,".data) low with
    | some rest =>
      if rest ≠ [] && rest.all isB64Char then
        some { mime := mime, bytes := dataUrlBytes rest }
      else none
    | none => none
  match tryFor "png".data with
  | some p => some p
  | none =>
    match tryFor "jpeg".data with
    | some p => some p
    | none => tryFor "jpg".data

/-- The byte ceiling MAX_DATA_URL_BYTES, twenty mebibytes. -/
def maxDataUrlBytes : Int := 20 * 1024 * 1024

/-- The per-segment character ceiling MAX_TEXT_CHARS. -/
def maxTextChars : Nat := 8000

/-- Coerce one incoming part, from the part loop of coerceMessage. -/
def coercePart (part : RawPart) : Except Str MessagePart :=
  match part with
  | .badPart => .error "Mensaje inválido".data
  | .unknownPart => .error "Mensaje inválido".data
  | .textPart t =>
    let textValue := sanitizeTextSegment t
    if textValue = [] || maxTextChars < textValue.length then .error "Mensaje inválido".data
    else .ok (.text textValue)
  | .imagePart iu =>
    match iu with
    | none => .error "Mensaje inválido".data
    | some obj =>
      let url := match obj.url with
        | some u => jsTrim u
        | none => []
      if url = [] then .error "URL de imagen inválida".data
      else
        let detail := normalizeDetail obj.detail
        if (dropLead "data:".data url).isSome then
          match getDataUrlPayload url with
          | none => .error "Data URL de imagen inválida".data
          | some payload =>
            if maxDataUrlBytes < payload.bytes then
              .error "La imagen adjunta supera el límite de 20 MiB".data
            else .ok (.image url detail)
        else if !isHttpUrl url then .error "URL de imagen inválida".data
        else .ok (.image url detail)

/-- Coerce a part list in order, stopping at the first failing part. -/
def coercePartList : List RawPart → Except Str (List MessagePart)
  | [] => .ok []
  | p :: rest =>
    match coercePart p with
    | .error e => .error e
    | .ok mp =>
      match coercePartList rest with
      | .error e => .error e
      | .ok mps => .ok (mp :: mps)

/-- From coerceMessage in the route: role check, then string content
sanitizing with emptiness and length checks, or part-list coercion with an
emptiness check. -/
def coerceMessage (input : RawInput) : Except Str ChatMessage :=
  match input with
  | .notObject => .error "Mensaje inválido".data
  | .msg m =>
    let role : Option Role :=
      if m.role = some "system".data then some .system
      else if m.role = some "user".data then some .user
      else if m.role = some "assistant".data then some .assistant
      else none
    match role with
    | none => .error "Rol de mensaje inválido.".data
    | some r =>
      match m.content with
      | .str s =>
        let sanitized := sanitizeTextSegment s
        if sanitized = [] || maxTextChars < sanitized.length then .error "Mensaje inválido".data
        else .ok { role := r, content := .str sanitized }
      | .other => .error "Mensaje inválido".data
      | .parts ps =>
        match coercePartList ps with
        | .error e => .error e
        | .ok parts =>
          if parts = [] then .error "Mensaje inválido".data
          else .ok { role := r, content := .parts parts }

/-- Coerce the whole messages array; the map of the source throws at the
first failing element. -/
def coerceAll : List RawInput → Except Str (List ChatMessage)
  | [] => .ok []
  | m :: rest =>
    match coerceMessage m with
    | .error e => .error e
    | .ok cm =>
      match coerceAll rest with
      | .error e => .error e
      | .ok cms => .ok (cm :: cms)

/-- From extractTextSegments in the route: a string content is one
segment, a part list contributes its text parts in order. -/
def extractTextSegments (content : MessageContent) : List Str :=
  match content with
  | .str s => [s]
  | .parts ps => ps.filterMap (fun p =>
      match p with
      | .text t => some t
      | .image _ _ => none)

/-- First guard violation over a list of text segments, mirroring the
guard loop of POST. -/
def firstViolation : List Str → Option Str
  | [] => none
  | s :: rest =>
    match guardOrThrow s with
    | some m => some m
    | none => firstViolation rest

/-- A rate-limit map entry, from the RateEntry type of the route. -/
structure RateEntry where
  count : Int
  resetAt : Int
deriving DecidableEq

/-- The per-client rate map, modelled extensionally: a lookup function
from client id to entry. -/
abbrev RateState := Str → Option RateEntry

/-- The empty rate map (module initialisation state). -/
def emptyRS : RateState := fun _ => none

/-- From cleanupRateState in the route: every entry whose window has
expired (resetAt at or before now) is deleted. -/
def cleanupRateState (now : Int) (st : RateState) : RateState :=
  fun k =>
    match st k with
    | some e => if e.resetAt ≤ now then none else some e
    | none => none

/-- Map update, the set operation of the JavaScript Map. -/
def mapSet (st : RateState) (k : Str) (v : RateEntry) : RateState :=
  fun k2 => if k2 = k then some v else st k2

/-- From the RateLimitResult union of the route. -/
inductive RateLimitResult where
  | allowed (limit remaining resetSeconds : Int)
  | rejected (limit retryAfterSeconds resetSeconds : Int)
deriving DecidableEq

/-- Ceiling of d over 1000 on integers, the Math.ceil of the source over
the exact values arising there. -/
def ceilDiv1000 (d : Int) : Int := (d + 999) / 1000

/-- From applyRateLimit in the route.  The Date.now clock and the
module-level map are passed explicitly; the configuration guards
Number.isFinite(cfg) and cfg greater than zero are modelled by the
positivity test (the parse of a missing environment variable is outside
the model).  The fresh branch covers both a missing entry and an entry at
or past its reset time, as in the source; after the eager cleanup the
second disjunct is unreachable but is kept for fidelity. -/
def applyRateLimit (limitCfg windowCfg : Int) (st : RateState) (clientId : Str) (now : Int) :
    RateLimitResult × RateState :=
  let st1 := cleanupRateState now st
  let limit := if 0 < limitCfg then limitCfg else 10
  let windowMs := if 0 < windowCfg then windowCfg else 60000
  let resetSeconds := match st1 clientId with
    | some e => max 1 (ceilDiv1000 (e.resetAt - now))
    | none => max 1 (ceilDiv1000 windowMs)
  match st1 clientId with
  | none =>
    let resetAt := now + windowMs
    (.allowed limit (max 0 (limit - 1)) (max 1 (ceilDiv1000 (resetAt - now))),
     mapSet st1 clientId { count := 1, resetAt := resetAt })
  | some existing =>
    if existing.resetAt ≤ now then
      let resetAt := now + windowMs
      (.allowed limit (max 0 (limit - 1)) (max 1 (ceilDiv1000 (resetAt - now))),
       mapSet st1 clientId { count := 1, resetAt := resetAt })
    else if limit ≤ existing.count then
      let retryAfterSeconds := max 1 (ceilDiv1000 (existing.resetAt - now))
      (.rejected limit retryAfterSeconds retryAfterSeconds, st1)
    else
      (.allowed limit (max 0 (limit - (existing.count + 1))) resetSeconds,
       mapSet st1 clientId { count := existing.count + 1, resetAt := existing.resetAt })

/-- From getClientId in the route: the first comma-separated element of
the forwarded-for header, trimmed, with empty results replaced by the
sentinel; a falsy (absent or empty) header falls back to the direct
connection ip, then to the sentinel. -/
def getClientId (forwarded ip : Option Str) : Str :=
  match forwarded with
  | some f =>
    if f = [] then
      match ip with
      | some i => i
      | none => "unknown".data
    else
      let first := jsTrim (f.takeWhile (fun c => !(c = ',': Bool)))
      if first = [] then "unknown".data else first
  | none =>
    match ip with
    | some i => i
    | none => "unknown".data

/-- From tokensForLevel in the route: floor the level, clamp it into one
to five, and map it through the power-of-two table with base 128.  The
level is a finite number here; the non-finite fallback of the source
ternary is handled at the call site, which only calls with finite
numbers. -/
def tokensForLevel (level : ℚ) : Int :=
  let n : Int := max 1 (min 5 ⌊level⌋)
  128 * 2 ^ (n - 1).toNat

/-- From the resolvedMaxTokens conditional of POST: a present finite
responseLevel wins, else a present finite maxTokens is floored and
clamped into 128 to 2048, else the default 512.  An absent or non-finite
number field is modelled as none. -/
def resolveMaxTokens (responseLevel maxTokens : Option ℚ) : Int :=
  match responseLevel with
  | some l => tokensForLevel l
  | none =>
    match maxTokens with
    | some m => min (max ⌊m⌋ 128) 2048
    | none => 512

/-- Comparison of two rationals by cross multiplication (denominators are
positive), written on the integer components so that it evaluates by
kernel reduction. -/
def ratLe (a b : ℚ) : Bool := a.num * (b.den : Int) ≤ b.num * (a.den : Int)

/-- The larger of two rationals, the Math.max of the source. -/
def ratMax (a b : ℚ) : ℚ := if ratLe a b then b else a

/-- The smaller of two rationals, the Math.min of the source. -/
def ratMin (a b : ℚ) : ℚ := if ratLe a b then a else b

/-- From the clampedTemp expression of POST: default 0.8, clamped into
zero to two. -/
def clampTemp (temperature : Option ℚ) : ℚ :=
  let t := match temperature with
    | some t => t
    | none => (4 : ℚ) / 5
  ratMin (ratMax t 0) 2

/-- The parsed request body of POST; each optional field is none when
absent or not of the checked primitive type, and messages is none when
the field is not an array. -/
structure RequestBody where
  model : Option Str
  temperature : Option ℚ
  systemPrompt : Option Str
  characterPrompt : Option Str
  messages : Option (List RawInput)
  responseLevel : Option ℚ
  maxTokens : Option ℚ
deriving DecidableEq

/-- The two entries of ALLOWED_MODELS. -/
def allowedModels : List Str :=
  ["grok-4-fast-reasoning".data, "grok-4-fast-non-reasoning".data]

/-- The model guard of POST: a falsy or unlisted model is rejected (the
empty string is falsy and also unlisted). -/
def modelAllowed (m : Str) : Bool :=
  allowedModels.any (fun a => a = m)

/-- From the characterPromptValue expression of POST: sanitize a string
character prompt and cut it to the prompt ceiling; any other value gives
the empty string. -/
def charPromptValue (characterPrompt : Option Str) : Str :=
  match characterPrompt with
  | some cp => (sanitizePrompt cp).take 4000
  | none => []

/-- From the character-prompt injection of POST: a nonempty sanitized
character prompt becomes an extra leading system message. -/
def buildSafeMsgs (cpv : Str) (msgs : List ChatMessage) : List ChatMessage :=
  if cpv ≠ [] then { role := .system, content := .str cpv } :: msgs else msgs

/-- JavaScript slice with negative start: the last n elements. -/
def sliceLast (n : Nat) (l : List ChatMessage) : List ChatMessage :=
  l.drop (l.length - n)

/-- From the finalMsgs expression of POST: the sanitized system prompt in
front of the safe messages, sliced to the last 51 entries. -/
def finalMsgsDef (spv : Str) (safeMsgs : List ChatMessage) : List ChatMessage :=
  sliceLast 51 ({ role := .system, content := .str spv } :: safeMsgs)

/-- The upstream payload of POST (the stream flag is the constant true and
the token field name is max_output_tokens). -/
structure Payload where
  model : Str
  temperature : ℚ
  stream : Bool
  messages : List ChatMessage
  maxOutputTokens : Int
deriving DecidableEq

/-- The three RateLimit informational headers, as numbers. -/
structure RateHeaders where
  limit : Int
  remaining : Int
  reset : Int
deriving DecidableEq

/-- Header construction at admission time; remaining is floored at zero a
second time as in the source. -/
def mkRateHeaders (limit remaining resetSeconds : Int) : RateHeaders :=
  { limit := limit, remaining := max 0 remaining, reset := resetSeconds }

/-- Behaviour of the upstream fetch, an external collaborator: a streaming
success, an http-level failure carrying the status and the optional
string error field of the provider body, or a thrown network error. -/
inductive UpstreamBehavior where
  | ok
  | httpError (status : Nat) (errField : Option Str)
  | networkThrow
deriving DecidableEq

/-- Outcome of one POST invocation.  An error response records status,
code, message, the rate headers attached to it, and the payload sent
upstream when the failure happened after the upstream call (none when the
request never reached the provider).  A streaming success records the
headers and the payload sent. -/
inductive PostResult where
  | forbidden
  | unsupportedMedia
  | rateLimited (limit retryAfterSeconds resetSeconds : Int)
  | failedResponse (status : Nat) (code : Str) (msg : Str) (rh : RateHeaders)
      (fetched : Option Payload)
  | streamResponse (rh : RateHeaders) (sent : Payload)
deriving DecidableEq

/-- The payload of the upstream call, when one was made. -/
def sentPayload : PostResult → Option Payload
  | .failedResponse _ _ _ _ fetched => fetched
  | .streamResponse _ sent => some sent
  | _ => none

/-- Substring test, the JavaScript String includes. -/
def containsSub (pat : Str) (s : Str) : Bool :=
  match s with
  | [] => (dropLead pat []).isSome
  | _ :: rest => (dropLead pat s).isSome || containsSub pat rest

/-- The request as seen by POST: origin of the request URL, origin
header, content type, client identification fields, the clock, the parse
result of the JSON body (none when parsing throws), and the upstream
behaviour. -/
structure ReqModel where
  reqOrigin : Str
  originHeader : Option Str
  contentType : Option Str
  forwardedFor : Option Str
  ip : Option Str
  now : Int
  body : Option RequestBody
  upstream : UpstreamBehavior

/-- The origin check of POST: reject when a truthy origin header differs
from the request origin. -/
def originRejects (req : ReqModel) : Bool :=
  match req.originHeader with
  | some o => if o = [] then false else !(o = req.reqOrigin : Bool)
  | none => false

/-- The content-type check of POST: the header must exist and contain
application/json. -/
def contentTypeOk (ct : Option Str) : Bool :=
  match ct with
  | some c => containsSub "application/json".data c
  | none => false

/-- The body of POST after admission, from the parse of the JSON body to
the response: validation, coercion, guard, payload assembly and the
upstream call.  A parse failure propagates to the outer catch, which
answers 500 with the admission headers already bound. -/
def processRequest (apiKeyPresent : Bool) (upstream : UpstreamBehavior)
    (body : Option RequestBody) (rh : RateHeaders) : PostResult :=
  match body with
  | none => .failedResponse 500 "internal_server_error".data "Error interno del servidor".data rh none
  | some b =>
    match b.model with
    | none => .failedResponse 400 "bad_request".data "Modelo no válido".data rh none
    | some mdl =>
      if !modelAllowed mdl then
        .failedResponse 400 "bad_request".data "Modelo no válido".data rh none
      else
        match b.systemPrompt with
        | none =>
          .failedResponse 400 "bad_request".data "systemPrompt inválido o demasiado largo".data rh none
        | some sp =>
          if sp.length = 0 || 4000 < sp.length then
            .failedResponse 400 "bad_request".data "systemPrompt inválido o demasiado largo".data rh none
          else if sanitizePrompt sp = [] then
            .failedResponse 400 "bad_request".data "systemPrompt inválido o demasiado largo".data rh none
          else
            match b.messages with
            | none =>
              .failedResponse 400 "bad_request".data "messages inválido o demasiados elementos".data rh none
            | some rawMsgs =>
              if rawMsgs.length = 0 || 50 < rawMsgs.length then
                .failedResponse 400 "bad_request".data "messages inválido o demasiados elementos".data rh none
              else
                match coerceAll rawMsgs with
                | .error e => .failedResponse 400 "bad_request".data e rh none
                | .ok coerced =>
                  match (buildSafeMsgs (charPromptValue b.characterPrompt) coerced).reverse.find?
                      (fun m => m.role = Role.user) with
                  | none =>
                    .failedResponse 400 "bad_request".data "No hay mensaje de usuario".data rh none
                  | some lastUserMessage =>
                    match firstViolation (extractTextSegments lastUserMessage.content) with
                    | some vmsg => .failedResponse 400 "bad_request".data vmsg rh none
                    | none =>
                      if !apiKeyPresent then
                        .failedResponse 500 "internal_server_error".data
                          "Configuración del servidor incompleta".data rh none
                      else
                        match upstream with
                        | .ok =>
                          .streamResponse rh
                            { model := mdl
                              temperature := clampTemp b.temperature
                              stream := true
                              messages := finalMsgsDef (sanitizePrompt sp)
                                (buildSafeMsgs (charPromptValue b.characterPrompt) coerced)
                              maxOutputTokens := resolveMaxTokens b.responseLevel b.maxTokens }
                        | .httpError status errField =>
                          .failedResponse (if status = 0 then 502 else status)
                            "internal_server_error".data
                            (match errField with
                             | some e => e
                             | none => "Error en la API de xAI".data)
                            rh
                            (some { model := mdl
                                    temperature := clampTemp b.temperature
                                    stream := true
                                    messages := finalMsgsDef (sanitizePrompt sp)
                                      (buildSafeMsgs (charPromptValue b.characterPrompt) coerced)
                                    maxOutputTokens := resolveMaxTokens b.responseLevel b.maxTokens })
                        | .networkThrow =>
                          .failedResponse 500 "internal_server_error".data
                            "Error interno del servidor".data rh
                            (some { model := mdl
                                    temperature := clampTemp b.temperature
                                    stream := true
                                    messages := finalMsgsDef (sanitizePrompt sp)
                                      (buildSafeMsgs (charPromptValue b.characterPrompt) coerced)
                                    maxOutputTokens := resolveMaxTokens b.responseLevel b.maxTokens })

/-- From POST in the route: origin check, content-type check, rate-limit
admission (before the body is parsed), then the admitted request body
processing.  Returns the response outcome and the rate map after the
call. -/
def POSTmodel (limitCfg windowCfg : Int) (apiKeyPresent : Bool) (req : ReqModel)
    (st : RateState) : PostResult × RateState :=
  if originRejects req then (.forbidden, st)
  else if !contentTypeOk req.contentType then (.unsupportedMedia, st)
  else
    match (applyRateLimit limitCfg windowCfg st (getClientId req.forwardedFor req.ip) req.now).1 with
    | .rejected limit retryAfterSeconds resetSeconds =>
      (.rateLimited limit retryAfterSeconds resetSeconds,
       (applyRateLimit limitCfg windowCfg st (getClientId req.forwardedFor req.ip) req.now).2)
    | .allowed limit remaining resetSeconds =>
      (processRequest apiKeyPresent req.upstream req.body
        (mkRateHeaders limit remaining resetSeconds),
       (applyRateLimit limitCfg windowCfg st (getClientId req.forwardedFor req.ip) req.now).2)

/-- The remaining-quota component of an admission, when admitted. -/
def remainingOf : RateLimitResult → Option Int
  | .allowed _ remaining _ => some remaining
  | .rejected _ _ _ => none

/-- The retry-after component of a rejection, when rejected. -/
def retryOf : RateLimitResult → Option Int
  | .allowed _ _ _ => none
  | .rejected _ retryAfterSeconds _ => some retryAfterSeconds

/-- The rate map after n successive calls for one client at the given call
times, starting from the empty map, with the default configuration. -/
def rlStep (ts : Nat → Int) (cid : Str) : Nat → RateState
  | 0 => emptyRS
  | n + 1 => (applyRateLimit 10 60000 (rlStep ts cid n) cid (ts n)).2

/-- The admission result of call number n + 1 in the trajectory. -/
def rlRes (ts : Nat → Int) (cid : Str) (n : Nat) : RateLimitResult :=
  (applyRateLimit 10 60000 (rlStep ts cid n) cid (ts n)).1

/-- The message list of the payload sent upstream, when one was sent. -/
def msgsOfSent (r : PostResult) : List ChatMessage :=
  match sentPayload r with
  | some p => p.messages
  | none => []

/-- A png data URL with the given base64 payload. -/
def pngUrlOf (b64 : Str) : Str := "data:image/png;base64,".data ++ b64

/-- A well-formed request body with one user message, used to instantiate
the universally quantified theorems on a concrete admitted request. -/
def sampleBody : RequestBody :=
  { model := some "grok-4-fast-reasoning".data
    temperature := some 1
    systemPrompt := some "hola".data
    characterPrompt := none
    messages := some [.msg { role := some "user".data, content := .str "hola".data }]
    responseLevel := none
    maxTokens := none }

/-- A well-formed request around sampleBody. -/
def samplePostReq : ReqModel :=
  { reqOrigin := "https://example.com".data
    originHeader := some "https://example.com".data
    contentType := some "application/json".data
    forwardedFor := none
    ip := none
    now := 0
    body := some sampleBody
    upstream := .ok }

/-- The payload POST sends upstream for samplePostReq. -/
def samplePayload : Payload :=
  { model := "grok-4-fast-reasoning".data
    temperature := 1
    stream := true
    messages := [{ role := .system, content := .str "hola".data },
                 { role := .user, content := .str "hola".data }]
    maxOutputTokens := 512 }

/-- A request whose conversation is at the 50-message cap and which also
carries a character prompt, exercising the truncation edge of the final
message list. -/
def cap50Req : ReqModel :=
  { reqOrigin := "https://example.com".data
    originHeader := some "https://example.com".data
    contentType := some "application/json".data
    forwardedFor := none
    ip := none
    now := 0
    body := some { model := some "grok-4-fast-reasoning".data
                   temperature := some 1
                   systemPrompt := some "s".data
                   characterPrompt := some "c".data
                   messages := some (List.replicate 50
                     (.msg { role := some "user".data, content := .str "hola".data }))
                   responseLevel := none
                   maxTokens := none }
    upstream := .ok }

/-- A body whose single user message violates the underage lexicon. -/
def violBody : RequestBody :=
  { model := some "grok-4-fast-reasoning".data
    temperature := some 1
    systemPrompt := some "hola".data
    characterPrompt := none
    messages := some [.msg { role := some "user".data, content := .str "loli".data }]
    responseLevel := none
    maxTokens := none }

/-- A request whose newest user message violates the underage lexicon. -/
def guardViolReq : ReqModel :=
  { reqOrigin := "https://example.com".data
    originHeader := some "https://example.com".data
    contentType := some "application/json".data
    forwardedFor := none
    ip := none
    now := 0
    body := some violBody
    upstream := .ok }

/-- A request that passes origin and content type but whose body fails to
parse. -/
def badBodyReq : ReqModel :=
  { reqOrigin := "https://example.com".data
    originHeader := some "https://example.com".data
    contentType := some "application/json".data
    forwardedFor := none
    ip := none
    now := 0
    body := none
    upstream := .ok }

/-- C3: guardOrThrow returns normally exactly when none of the five policy
rules matches, and a raised violation carries the distinct message of the
first matching rule in the fixed source order (underage lexicon, age
pattern minus exclusions, hard topics, doxxing, likeness with NSFW).  The
embedding is a pure function, so the input is never mutated. -/
theorem c3_guard_rule_order (t : Str) :
    (guardOrThrow t = none ↔
      (testUnderageLex (normalizeText t) = false ∧
       (testUnderageAge (normalizeText t) && !testUnderageExcl (normalizeText t)) = false ∧
       testHardRules (normalizeText t) = false ∧
       testDoxxing (normalizeText t) = false ∧
       (testRealLikeness t && testNsfwTerms (normalizeText t)) = false)) ∧
    (testUnderageLex (normalizeText t) = true →
      guardOrThrow t = some msgUnderageLex) ∧
    (testUnderageLex (normalizeText t) = false →
      (testUnderageAge (normalizeText t) && !testUnderageExcl (normalizeText t)) = true →
      guardOrThrow t = some msgUnderageAge) ∧
    (testUnderageLex (normalizeText t) = false →
      (testUnderageAge (normalizeText t) && !testUnderageExcl (normalizeText t)) = false →
      testHardRules (normalizeText t) = true →
      guardOrThrow t = some msgHardRules) ∧
    (testUnderageLex (normalizeText t) = false →
      (testUnderageAge (normalizeText t) && !testUnderageExcl (normalizeText t)) = false →
      testHardRules (normalizeText t) = false →
      testDoxxing (normalizeText t) = true →
      guardOrThrow t = some msgDoxxing) ∧
    (testUnderageLex (normalizeText t) = false →
      (testUnderageAge (normalizeText t) && !testUnderageExcl (normalizeText t)) = false →
      testHardRules (normalizeText t) = false →
      testDoxxing (normalizeText t) = false →
      (testRealLikeness t && testNsfwTerms (normalizeText t)) = true →
      guardOrThrow t = some msgLikeness) := by
  unfold guardOrThrow
  cases h1 : testUnderageLex (normalizeText t) <;>
    cases h2 : testUnderageAge (normalizeText t) && !testUnderageExcl (normalizeText t) <;>
      cases h3 : testHardRules (normalizeText t) <;>
        cases h4 : testDoxxing (normalizeText t) <;>
          cases h5 : testRealLikeness t && testNsfwTerms (normalizeText t) <;>
            simp [h1, h2, h3, h4, h5]

/-- C3 witness: on a text caught by both the lexicon rule and the age
rule, the first rule in the order wins. -/
theorem c3_witness : guardOrThrow "loli 5 yo".data = some msgUnderageLex :=
  (c3_guard_rule_order "loli 5 yo".data).2.1 (by decide)

/-- C4 counterexample: the source exclusion patterns are the Spanish
diacritic-stripped forms only, so the English phrase seventeen years of
experience is not excluded and the guard fails on it, contradicting the
claim that it passes. -/
theorem c4_counterexample :
    guardOrThrow "17 years of experience".data = some msgUnderageAge ∧
    guardOrThrow "17 years of experience".data ≠ none ∧
    guardOrThrow "14 years ago".data = some msgUnderageAge :=
  ⟨by decide, by decide, by decide⟩

/-- C4 amended: a text whose normalization matches the age pattern and not
the exclusion pattern fails the guard; the exclusion phrases are the
Spanish forms (hace N anos, anos de experiencia, anos despues, anos
atras, antiguedad), so the Spanish phrasings pass while the English
years-of-experience and years-ago phrasings are not exclusions and
fail. -/
theorem c4_age_rule :
    (∀ t : Str, testUnderageAge (normalizeText t) = true →
      testUnderageExcl (normalizeText t) = false →
      guardOrThrow t ≠ none) ∧
    guardOrThrow "17 años de experiencia".data = none ∧
    guardOrThrow "hace 14 años".data = none ∧
    guardOrThrow "antigüedad 15 años".data = none ∧
    guardOrThrow "17 years of experience".data = some msgUnderageAge := by
  refine ⟨?_, by decide, by decide, by decide, by decide⟩
  intro t h1 h2
  unfold guardOrThrow
  cases h0 : testUnderageLex (normalizeText t) <;> simp [h0, h1, h2]

/-- C4 witness: a bare underage age fails the guard. -/
theorem c4_witness : guardOrThrow "15 yrs".data ≠ none :=
  c4_age_rule.1 "15 yrs".data (by decide) (by decide)

/-- C9: the code at the failing input.  applyLeetspeak leaves the digit
substitutions unapplied even between letters, because the replace callback
of the source declares (match, _group, offset) for a regex with no capture
group, binding offset to the whole input, so the adjacency test always
sees undefined neighbours; the specified folding (applyLeetspeakSpec)
would rewrite n1na to nina, which the underage lexicon catches, while the
shipped guard passes the text. -/
theorem c9_leetspeak_dead_adjacency :
    applyLeetspeak "n1na".data = "n1na".data ∧
    applyLeetspeakSpec "n1na".data = "nina".data ∧
    guardOrThrow "n1na".data = none ∧
    testUnderageLex (normalizeText "nina".data) = true ∧
    applyLeetspeak "s3x0 h0t".data = "s3x0 h0t".data ∧
    applyLeetspeakSpec "s3x0 h0t".data = "sexo hot".data ∧
    applyLeetspeak "@nna".data = "anna".data :=
  ⟨by decide, by decide, by decide, by decide, by decide, by decide, by decide⟩

/-- The cleaned map has no entry for a client whose stored entry, if any,
has expired. -/
theorem cleanup_none_of (st : RateState) (cid : Str) (now : Int)
    (h : ∀ e, st cid = some e → e.resetAt ≤ now) :
    cleanupRateState now st cid = none := by
  unfold cleanupRateState
  cases hst : st cid with
  | none => rfl
  | some e => simp [h e hst]

/-- The cleaned map keeps the entry of a client whose stored entry is
still live. -/
theorem cleanup_some_of (st : RateState) (cid : Str) (now : Int) (e : RateEntry)
    (he : st cid = some e) (hlive : now < e.resetAt) :
    cleanupRateState now st cid = some e := by
  have hne : ¬e.resetAt ≤ now := by omega
  simp [cleanupRateState, he, hne]

/-- Fresh-window behaviour of applyRateLimit: with no live entry, a fresh
entry with count one is created and the call is admitted. -/
theorem applyRateLimit_fresh (l w : Int) (st : RateState) (cid : Str) (now : Int)
    (h : ∀ e, st cid = some e → e.resetAt ≤ now) :
    applyRateLimit l w st cid now =
      (.allowed (if 0 < l then l else 10)
         (max 0 ((if 0 < l then l else 10) - 1))
         (max 1 (ceilDiv1000 (if 0 < w then w else 60000))),
       mapSet (cleanupRateState now st) cid
         { count := 1, resetAt := now + (if 0 < w then w else 60000) }) := by
  have hc := cleanup_none_of st cid now h
  simp only [applyRateLimit, hc, add_sub_cancel_left]

/-- In-window admission of applyRateLimit at the default configuration:
a live entry below the limit is incremented and the call admitted. -/
theorem applyRateLimit_admit (st : RateState) (cid : Str) (now : Int) (e : RateEntry)
    (he : st cid = some e) (hlive : now < e.resetAt) (hcount : e.count < 10) :
    applyRateLimit 10 60000 st cid now =
      (.allowed 10 (max 0 (10 - (e.count + 1))) (max 1 (ceilDiv1000 (e.resetAt - now))),
       mapSet (cleanupRateState now st) cid { count := e.count + 1, resetAt := e.resetAt }) := by
  have hc := cleanup_some_of st cid now e he hlive
  have h1 : ¬e.resetAt ≤ now := by omega
  have h2 : ¬(10 : Int) ≤ e.count := by omega
  simp only [applyRateLimit, hc, ite_self]
  rw [if_neg h1, if_neg h2]

/-- In-window rejection of applyRateLimit at the default configuration:
a live entry at or above the limit rejects and the map keeps the stored
count. -/
theorem applyRateLimit_reject (st : RateState) (cid : Str) (now : Int) (e : RateEntry)
    (he : st cid = some e) (hlive : now < e.resetAt) (hcount : 10 ≤ e.count) :
    applyRateLimit 10 60000 st cid now =
      (.rejected 10 (max 1 (ceilDiv1000 (e.resetAt - now)))
         (max 1 (ceilDiv1000 (e.resetAt - now))),
       cleanupRateState now st) := by
  have hc := cleanup_some_of st cid now e he hlive
  have h1 : ¬e.resetAt ≤ now := by omega
  simp only [applyRateLimit, hc, ite_self]
  rw [if_neg h1, if_pos hcount]

/-- Updating a cleaned single-entry map rewrites it to the single updated
entry, when the stored entry is still live. -/
theorem mapSet_cleanup_single (cid : Str) (v v2 : RateEntry) (now : Int)
    (hl : now < v.resetAt) :
    mapSet (cleanupRateState now (mapSet emptyRS cid v)) cid v2
      = mapSet emptyRS cid v2 := by
  funext k
  by_cases hk : k = cid <;> simp [mapSet, cleanupRateState, emptyRS, hk]

/-- A live single-entry map survives cleanup unchanged. -/
theorem cleanup_single_live (cid : Str) (v : RateEntry) (now : Int)
    (hl : now < v.resetAt) :
    cleanupRateState now (mapSet emptyRS cid v) = mapSet emptyRS cid v := by
  have hne : ¬v.resetAt ≤ now := by omega
  funext k
  by_cases hk : k = cid <;> simp [mapSet, cleanupRateState, emptyRS, hk, hne]

/-- State of the default-configuration trajectory: after n admitted calls
inside one window the map holds the single entry with count n and the
reset time of the first call. -/
theorem rlStep_char (ts : Nat → Int) (cid : Str)
    (hwin : ∀ n, n ≤ 10 → ts 0 ≤ ts n ∧ ts n < ts 0 + 60000) :
    ∀ n, 1 ≤ n → n ≤ 10 →
      rlStep ts cid n = mapSet emptyRS cid { count := (n : Int), resetAt := ts 0 + 60000 } := by
  intro n
  induction n with
  | zero => intro h1 _; exact absurd h1 (by norm_num)
  | succ m ih =>
    intro _ hm10
    by_cases hm : m = 0
    · subst hm
      show (applyRateLimit 10 60000 (rlStep ts cid 0) cid (ts 0)).2 = _
      rw [show rlStep ts cid 0 = emptyRS from rfl,
        applyRateLimit_fresh 10 60000 emptyRS cid (ts 0) (fun e h => by simp [emptyRS] at h)]
      have hce : cleanupRateState (ts 0) emptyRS = emptyRS := by funext k; rfl
      simp [hce, ite_self]
    · have hstep := ih (by omega) (by omega)
      show (applyRateLimit 10 60000 (rlStep ts cid m) cid (ts m)).2 = _
      have hlive : ts m < ts 0 + 60000 := (hwin m (by omega)).2
      rw [hstep,
        applyRateLimit_admit _ cid (ts m) { count := (m : Int), resetAt := ts 0 + 60000 }
          (by simp [mapSet]) hlive (by push_cast; omega),
        mapSet_cleanup_single cid _ _ (ts m) hlive]
      have : ((m : Int) + 1) = ((m + 1 : Nat) : Int) := by push_cast; ring
      rw [this]

/-- C5: with the default limit ten and window sixty thousand
milliseconds, the first ten calls of one client inside one window are
admitted with remaining nine down to zero in order; the eleventh call is
rejected with retryAfterSeconds equal to the ceiling of the remaining
window in seconds, lying between one and sixty, and the stored count is
not incremented; and any call for a client whose stored entry is absent
or expired creates a fresh entry with count one and reset time now plus
the window, admitted with remaining nine. -/
theorem c5_rate_limiter (ts : Nat → Int) (cid : Str)
    (hwin : ∀ n, n ≤ 10 → ts 0 ≤ ts n ∧ ts n < ts 0 + 60000) :
    (∀ n, n ≤ 9 → rlRes ts cid n
        = .allowed 10 (9 - (n : Int)) (max 1 (ceilDiv1000 (ts 0 + 60000 - ts n)))) ∧
    (rlRes ts cid 10
        = .rejected 10 (ceilDiv1000 (ts 0 + 60000 - ts 10))
            (ceilDiv1000 (ts 0 + 60000 - ts 10)) ∧
     1 ≤ ceilDiv1000 (ts 0 + 60000 - ts 10) ∧
     ceilDiv1000 (ts 0 + 60000 - ts 10) ≤ 60 ∧
     rlStep ts cid 11 cid = some { count := 10, resetAt := ts 0 + 60000 }) ∧
    (∀ (st : RateState) (cid2 : Str) (now : Int),
      (∀ e, st cid2 = some e → e.resetAt ≤ now) →
      (applyRateLimit 10 60000 st cid2 now).1 = .allowed 10 9 60 ∧
      (applyRateLimit 10 60000 st cid2 now).2 cid2
        = some { count := 1, resetAt := now + 60000 }) := by
  have hlive10 : ts 10 < ts 0 + 60000 := (hwin 10 (by norm_num)).2
  have hle10 : ts 0 ≤ ts 10 := (hwin 10 (by norm_num)).1
  have hceil1 : 1 ≤ ceilDiv1000 (ts 0 + 60000 - ts 10) := by
    unfold ceilDiv1000
    calc (1 : Int) = 1000 / 1000 := by decide
    _ ≤ (ts 0 + 60000 - ts 10 + 999) / 1000 := Int.ediv_le_ediv (by norm_num) (by omega)
  have hceil60 : ceilDiv1000 (ts 0 + 60000 - ts 10) ≤ 60 := by
    unfold ceilDiv1000
    calc (ts 0 + 60000 - ts 10 + 999) / 1000 ≤ 60999 / 1000 :=
      Int.ediv_le_ediv (by norm_num) (by omega)
    _ = 60 := by decide
  refine ⟨?_, ⟨?_, hceil1, hceil60, ?_⟩, ?_⟩
  · intro n hn
    by_cases h0 : n = 0
    · subst h0
      unfold rlRes
      rw [show rlStep ts cid 0 = emptyRS from rfl,
        applyRateLimit_fresh 10 60000 emptyRS cid (ts 0) (fun e h => by simp [emptyRS] at h)]
      simp [ite_self, add_sub_cancel_left]
    · unfold rlRes
      rw [rlStep_char ts cid hwin n (by omega) (by omega),
        applyRateLimit_admit _ cid (ts n) { count := (n : Int), resetAt := ts 0 + 60000 }
          (by simp [mapSet]) (hwin n (by omega)).2 (by push_cast; omega)]
      have hmax : max (0 : Int) (10 - ((n : Int) + 1)) = 9 - (n : Int) := by
        rw [max_eq_right (by push_cast; omega)]
        push_cast
        omega
      simp only [hmax]
  · unfold rlRes
    rw [rlStep_char ts cid hwin 10 (by norm_num) (by norm_num),
      applyRateLimit_reject _ cid (ts 10) { count := 10, resetAt := ts 0 + 60000 }
        (by simp [mapSet]) hlive10 (by norm_num)]
    simp only [max_eq_right hceil1]
  · show (applyRateLimit 10 60000 (rlStep ts cid 10) cid (ts 10)).2 cid = _
    rw [rlStep_char ts cid hwin 10 (by norm_num) (by norm_num),
      applyRateLimit_reject _ cid (ts 10) { count := 10, resetAt := ts 0 + 60000 }
        (by simp [mapSet]) hlive10 (by norm_num)]
    rw [cleanup_single_live cid _ (ts 10) hlive10]
    simp [mapSet]
  · intro st cid2 now h
    rw [applyRateLimit_fresh 10 60000 st cid2 now h]
    constructor
    · simp [ite_self]
      decide
    · simp [mapSet, ite_self]

/-- C5 witness: a concrete fresh first call is admitted with remaining
nine. -/
theorem c5_witness : rlRes (fun _ => 0) "c".data 0 = .allowed 10 9 60 := by
  have h := (c5_rate_limiter (fun _ => 0) "c".data
    (fun n _ => ⟨by norm_num, by norm_num⟩)).1 0 (by norm_num)
  simpa using h

/-- Characterization of a POST invocation that sent a payload upstream:
the body parsed, every validation stage passed, the guard passed on every
text segment of the newest user message, and the payload is assembled
from the sanitized prompts, the coerced conversation, the clamped
temperature and the resolved token budget. -/
theorem postSentChar (l w : Int) (k : Bool) (req : ReqModel) (st : RateState) (p : Payload)
    (h : sentPayload (POSTmodel l w k req st).1 = some p) :
    ∃ b mdl sp rawMsgs coerced lastU,
      req.body = some b ∧
      b.model = some mdl ∧
      modelAllowed mdl = true ∧
      b.systemPrompt = some sp ∧
      sanitizePrompt sp ≠ [] ∧
      b.messages = some rawMsgs ∧
      rawMsgs ≠ [] ∧
      rawMsgs.length ≤ 50 ∧
      coerceAll rawMsgs = .ok coerced ∧
      (buildSafeMsgs (charPromptValue b.characterPrompt) coerced).reverse.find?
        (fun m2 => m2.role = Role.user) = some lastU ∧
      firstViolation (extractTextSegments lastU.content) = none ∧
      p = { model := mdl
            temperature := clampTemp b.temperature
            stream := true
            messages := finalMsgsDef (sanitizePrompt sp)
              (buildSafeMsgs (charPromptValue b.characterPrompt) coerced)
            maxOutputTokens := resolveMaxTokens b.responseLevel b.maxTokens } := by
  unfold POSTmodel at h
  split at h
  · simp [sentPayload] at h
  split at h
  · simp [sentPayload] at h
  split at h
  · simp [sentPayload] at h
  unfold processRequest at h
  split at h
  · simp [sentPayload] at h
  rename_i b hbody
  split at h
  · simp [sentPayload] at h
  rename_i mdl hmodel
  split at h
  · simp [sentPayload] at h
  rename_i hallowed
  split at h
  · simp [sentPayload] at h
  rename_i sp hsp
  split at h
  · simp [sentPayload] at h
  rename_i hsplen
  split at h
  · simp [sentPayload] at h
  rename_i hspv
  split at h
  · simp [sentPayload] at h
  rename_i rawMsgs hmsgs
  split at h
  · simp [sentPayload] at h
  rename_i hcount
  split at h
  · simp [sentPayload] at h
  rename_i coerced hcoerce
  split at h
  · simp [sentPayload] at h
  rename_i lastU hfind
  split at h
  · simp [sentPayload] at h
  rename_i hviol
  split at h
  · simp [sentPayload] at h
  rename_i hkey
  have hlen : rawMsgs ≠ [] ∧ rawMsgs.length ≤ 50 := by
    simp only [Bool.or_eq_true, decide_eq_true_eq, not_or] at hcount
    refine ⟨?_, by omega⟩
    intro hn
    exact hcount.1 (by simp [hn])
  split at h <;> simp [sentPayload] at h <;>
    exact ⟨b, mdl, sp, rawMsgs, coerced, lastU, hbody, hmodel,
      (by simpa using hallowed), hsp, (by simpa using hspv), hmsgs,
      hlen.1, hlen.2, hcoerce, hfind, hviol, h.symm⟩

/-- C6: the output-token budget of POST gives a present finite
responseLevel priority over maxTokens, maps the floored level clamped
into one to five through the table 128 times two to the level minus one,
falls back to the floored maxTokens clamped into 128 to 2048, and
defaults to 512 when both are absent. -/
theorem c6_token_budget :
    (∀ (l w : Int) (k : Bool) (req : ReqModel) (st : RateState) (p : Payload),
      sentPayload (POSTmodel l w k req st).1 = some p →
      ∃ b, req.body = some b ∧
        p.maxOutputTokens = resolveMaxTokens b.responseLevel b.maxTokens) ∧
    (∀ (lv : ℚ) (mt : Option ℚ), resolveMaxTokens (some lv) mt = tokensForLevel lv) ∧
    tokensForLevel 1 = 128 ∧ tokensForLevel 2 = 256 ∧ tokensForLevel 3 = 512 ∧
    tokensForLevel 4 = 1024 ∧ tokensForLevel 5 = 2048 ∧
    tokensForLevel 0 = 128 ∧ tokensForLevel 9 = 2048 ∧
    (∀ q : ℚ, 1 ≤ ⌊q⌋ → ⌊q⌋ ≤ 5 → tokensForLevel q = 128 * 2 ^ (⌊q⌋ - 1).toNat) ∧
    (∀ q : ℚ, ⌊q⌋ < 1 → tokensForLevel q = 128) ∧
    (∀ q : ℚ, 5 < ⌊q⌋ → tokensForLevel q = 2048) ∧
    (∀ m : ℚ, resolveMaxTokens none (some m) = min (max ⌊m⌋ 128) 2048) ∧
    resolveMaxTokens none none = 512 := by
  refine ⟨?_, fun _ _ => rfl, by decide, by decide, by decide, by decide, by decide,
    by decide, by decide, ?_, ?_, ?_, fun _ => rfl, rfl⟩
  · intro l w k req st p h
    obtain ⟨b, _, _, _, _, _, hbody, _, _, _, _, _, _, _, _, _, _, hp⟩ :=
      postSentChar l w k req st p h
    exact ⟨b, hbody, by rw [hp]⟩
  · intro q h1 h5
    unfold tokensForLevel
    rw [min_eq_right h5, max_eq_right h1]
  · intro q h1
    unfold tokensForLevel
    rw [min_eq_right (by omega), max_eq_left (by omega)]
    rfl
  · intro q h5
    unfold tokensForLevel
    rw [min_eq_left (by omega)]
    rw [max_eq_right (by omega)]
    decide

/-- C6 witness: a concrete level resolution through the general clamp
equation. -/
theorem c6_witness : tokensForLevel 3 = 128 * 2 ^ ((⌊(3 : ℚ)⌋ - 1).toNat) :=
  c6_token_budget.2.2.2.2.2.2.2.2.2.1 3 (by norm_num) (by norm_num)

/-- A list whose first-violation scan found nothing has no violating
segment at all. -/
theorem firstViolation_none (segs : List Str) (h : firstViolation segs = none) :
    ∀ seg ∈ segs, guardOrThrow seg = none := by
  induction segs with
  | nil => intro seg hm; cases hm
  | cons s rest ih =>
    intro seg hm
    unfold firstViolation at h
    cases hg : guardOrThrow s with
    | some m => rw [hg] at h; cases h
    | none =>
      rw [hg] at h
      rcases List.mem_cons.mp hm with h1 | h2
      · rw [h1]; exact hg
      · exact ih h seg h2

/-- Every error response produced by the post-admission body carries
exactly the rate headers bound at admission time. -/
theorem processRequest_rh (k : Bool) (u : UpstreamBehavior) (b : Option RequestBody)
    (rh : RateHeaders) (status : Nat) (code msg : Str) (rh2 : RateHeaders)
    (fetched : Option Payload)
    (h : processRequest k u b rh = .failedResponse status code msg rh2 fetched) :
    rh2 = rh := by
  unfold processRequest at h
  repeat' split at h
  all_goals cases h
  all_goals rfl

/-- C1 amended: the upstream message list is the sanitized system prompt
in front of the safe messages (character prompt injected when nonempty),
sliced to the most recent fifty-one entries.  The leading system-prompt
message is retained whenever the safe list has at most fifty entries
(conversation of at most forty-nine messages with a character prompt, or
fifty without); with a fifty-message conversation and a character prompt
the slice drops the leading system-prompt message. -/
theorem c1_final_messages :
    (∀ (l w : Int) (k : Bool) (req : ReqModel) (st : RateState) (p : Payload),
      sentPayload (POSTmodel l w k req st).1 = some p →
      ∃ b sp coerced,
        req.body = some b ∧ b.systemPrompt = some sp ∧
        (∃ rawMsgs, b.messages = some rawMsgs ∧ coerceAll rawMsgs = .ok coerced ∧
          rawMsgs.length ≤ 50) ∧
        p.messages = finalMsgsDef (sanitizePrompt sp)
          (buildSafeMsgs (charPromptValue b.characterPrompt) coerced)) ∧
    (∀ (spv : Str) (safe : List ChatMessage), safe.length ≤ 50 →
      finalMsgsDef spv safe = { role := Role.system, content := .str spv } :: safe) ∧
    (∀ (spv : Str) (safe : List ChatMessage), safe.length = 51 →
      finalMsgsDef spv safe = safe) := by
  refine ⟨?_, ?_, ?_⟩
  · intro l w k req st p h
    obtain ⟨b, mdl, sp, rawMsgs, coerced, lastU, hbody, hmodel, hall, hsp, hspv, hmsgs,
      hnil, hlen, hco, hfind, hviol, hp⟩ := postSentChar l w k req st p h
    exact ⟨b, sp, coerced, hbody, hsp, ⟨rawMsgs, hmsgs, hco, hlen⟩, by rw [hp]⟩
  · intro spv safe hlen
    unfold finalMsgsDef sliceLast
    rw [show ({ role := Role.system, content := MessageContent.str spv } :: safe).length - 51
        = 0 from by simp; omega]
    rfl
  · intro spv safe hlen
    unfold finalMsgsDef sliceLast
    rw [show ({ role := Role.system, content := MessageContent.str spv } :: safe).length - 51
        = 1 from by simp [hlen]]
    simp

/-- C1 counterexample: a request at the fifty-message cap with a
character prompt present is admitted and sent upstream, but the first
entry of the outbound list is the character-prompt message and the
system-prompt message (sanitized system prompt s) is not in the list at
all, contradicting the claim that the leading system-prompt message is
always retained. -/
theorem c1_counterexample :
    (msgsOfSent (POSTmodel 10 60000 true cap50Req emptyRS).1).head?
      = some { role := Role.system, content := .str "c".data } ∧
    sanitizePrompt "s".data = "s".data ∧
    { role := Role.system, content := MessageContent.str "s".data } ∉
      msgsOfSent (POSTmodel 10 60000 true cap50Req emptyRS).1 ∧
    (msgsOfSent (POSTmodel 10 60000 true cap50Req emptyRS).1).length = 51 :=
  ⟨by decide, by decide, by decide, by decide⟩

/-- C1 witness: the admitted sample request sends the system prompt in
front of the coerced conversation. -/
theorem c1_witness :
    ∃ b sp coerced,
      samplePostReq.body = some b ∧ b.systemPrompt = some sp ∧
      (∃ rawMsgs, b.messages = some rawMsgs ∧ coerceAll rawMsgs = .ok coerced ∧
        rawMsgs.length ≤ 50) ∧
      samplePayload.messages = finalMsgsDef (sanitizePrompt sp)
        (buildSafeMsgs (charPromptValue b.characterPrompt) coerced) :=
  c1_final_messages.1 10 60000 true samplePostReq emptyRS samplePayload (by decide)

/-- C2: a request that reaches the upstream call has a coerced message
list whose newest user message passed the guard on every text segment;
and a request that reaches the guard with a violating segment in its
newest user message is answered with the 400 error carrying the first
violation message, and nothing is sent upstream. -/
theorem c2_guard_before_upstream (l w : Int) (k : Bool) (req : ReqModel) (st : RateState) :
    (∀ p, sentPayload (POSTmodel l w k req st).1 = some p →
      ∃ b rawMsgs coerced lastU,
        req.body = some b ∧ b.messages = some rawMsgs ∧
        coerceAll rawMsgs = .ok coerced ∧
        (buildSafeMsgs (charPromptValue b.characterPrompt) coerced).reverse.find?
          (fun m2 => m2.role = Role.user) = some lastU ∧
        ∀ seg ∈ extractTextSegments lastU.content, guardOrThrow seg = none) ∧
    (∀ (b : RequestBody) (mdl sp : Str) (rawMsgs : List RawInput)
        (coerced : List ChatMessage) (lastU : ChatMessage) (vmsg : Str)
        (limit remaining resetSeconds : Int),
      originRejects req = false →
      contentTypeOk req.contentType = true →
      (applyRateLimit l w st (getClientId req.forwardedFor req.ip) req.now).1
        = .allowed limit remaining resetSeconds →
      req.body = some b →
      b.model = some mdl → modelAllowed mdl = true →
      b.systemPrompt = some sp → sp ≠ [] → sp.length ≤ 4000 →
      sanitizePrompt sp ≠ [] →
      b.messages = some rawMsgs → rawMsgs ≠ [] → rawMsgs.length ≤ 50 →
      coerceAll rawMsgs = .ok coerced →
      (buildSafeMsgs (charPromptValue b.characterPrompt) coerced).reverse.find?
        (fun m2 => m2.role = Role.user) = some lastU →
      firstViolation (extractTextSegments lastU.content) = some vmsg →
      (POSTmodel l w k req st).1
        = .failedResponse 400 "bad_request".data vmsg
            (mkRateHeaders limit remaining resetSeconds) none ∧
      sentPayload (POSTmodel l w k req st).1 = none) := by
  constructor
  · intro p h
    obtain ⟨b, mdl, sp, rawMsgs, coerced, lastU, hbody, hmodel, hall, hsp, hspv, hmsgs,
      hnil, hlen, hco, hfind, hviol, hp⟩ := postSentChar l w k req st p h
    exact ⟨b, rawMsgs, coerced, lastU, hbody, hmsgs, hco, hfind,
      firstViolation_none _ hviol⟩
  · intro b mdl sp rawMsgs coerced lastU vmsg limit remaining resetSeconds
      hOg hCt hrl hbody hmodel hall hsp hspne hsplen hspv hmsgs hnil hlen hco hfind hviol
    have hpost : (POSTmodel l w k req st).1
        = processRequest k req.upstream req.body (mkRateHeaders limit remaining resetSeconds) := by
      unfold POSTmodel
      rw [if_neg (by simp [hOg]), if_neg (by simp [hCt])]
      simp only [hrl]
    have e1 : (!modelAllowed mdl) = false := by simp [hall]
    have e2 : ¬(4000 < sp.length) := by omega
    have e3 : ¬(50 < rawMsgs.length) := by omega
    refine ⟨?_, ?_⟩ <;>
      simp [hpost, processRequest, hbody, hmodel, e1, hsp, hspne, e2, hspv, hmsgs,
        hnil, e3, hco, hfind, hviol, sentPayload]

/-- C2 witness: the concrete violating request is answered 400 with the
lexicon violation message and nothing reaches the provider. -/
theorem c2_witness :
    (POSTmodel 10 60000 true guardViolReq emptyRS).1
      = .failedResponse 400 "bad_request".data msgUnderageLex (mkRateHeaders 10 9 60) none ∧
    sentPayload (POSTmodel 10 60000 true guardViolReq emptyRS).1 = none :=
  (c2_guard_before_upstream 10 60000 true guardViolReq emptyRS).2
    violBody "grok-4-fast-reasoning".data "hola".data
    [.msg { role := some "user".data, content := .str "loli".data }]
    [{ role := .user, content := .str "loli".data }]
    { role := .user, content := .str "loli".data }
    msgUnderageLex 10 9 60
    (by decide) (by decide) (by decide) (by decide) (by decide) (by decide) (by decide)
    (by decide) (by decide) (by decide) (by decide) (by decide) (by decide) (by decide)
    (by decide) (by decide)

/-- Inversion of a successful cleaned lookup: the raw map holds the same
entry and it is still live. -/
theorem cleanup_lookup (st : RateState) (cid : Str) (now : Int) (e0 : RateEntry)
    (hc : cleanupRateState now st cid = some e0) :
    st cid = some e0 ∧ now < e0.resetAt := by
  unfold cleanupRateState at hc
  cases hraw : st cid with
  | none => rw [hraw] at hc; cases hc
  | some e1 =>
    rw [hraw] at hc
    by_cases h1 : e1.resetAt ≤ now
    · simp [h1] at hc
    · simp [h1] at hc
      subst hc
      exact ⟨rfl, by omega⟩

/-- Admission always increments: an admitted call leaves the client with
a fresh count of one or the prior in-window count plus one. -/
theorem applyRateLimit_consume (l w : Int) (st : RateState) (cid : Str) (now : Int)
    (limit remaining resetSeconds : Int) (e : RateEntry)
    (hrl : (applyRateLimit l w st cid now).1 = .allowed limit remaining resetSeconds)
    (hst : (applyRateLimit l w st cid now).2 cid = some e) :
    (e.count = 1 ∧ e.resetAt = now + (if 0 < w then w else 60000)) ∨
    (∃ e0, cleanupRateState now st cid = some e0 ∧ now < e0.resetAt ∧
      e.count = e0.count + 1 ∧ e.resetAt = e0.resetAt) := by
  cases hc : cleanupRateState now st cid with
  | none =>
    have h2 : (applyRateLimit l w st cid now).2 cid
        = some { count := 1, resetAt := now + (if 0 < w then w else 60000) } := by
      simp only [applyRateLimit, hc]
      simp [mapSet]
    rw [h2] at hst
    cases hst
    left
    exact ⟨rfl, rfl⟩
  | some e0 =>
    obtain ⟨hraw, hlive⟩ := cleanup_lookup st cid now e0 hc
    by_cases hcount : (if 0 < l then l else 10) ≤ e0.count
    · have h1 : applyRateLimit l w st cid now
          = (.rejected (if 0 < l then l else 10)
               (max 1 (ceilDiv1000 (e0.resetAt - now)))
               (max 1 (ceilDiv1000 (e0.resetAt - now))),
             cleanupRateState now st) := by
        simp only [applyRateLimit, hc]
        rw [if_neg (by omega), if_pos hcount]
      rw [h1] at hrl
      cases hrl
    · have h1 : applyRateLimit l w st cid now
          = (.allowed (if 0 < l then l else 10)
               (max 0 ((if 0 < l then l else 10) - (e0.count + 1)))
               (max 1 (ceilDiv1000 (e0.resetAt - now))),
             mapSet (cleanupRateState now st) cid
               { count := e0.count + 1, resetAt := e0.resetAt }) := by
        simp only [applyRateLimit, hc]
        rw [if_neg (by omega), if_neg hcount]
      rw [h1] at hst
      simp [mapSet] at hst
      right
      exact ⟨e0, rfl, hlive, by rw [← hst], by rw [← hst]⟩

/-- C10: once a request passes the origin and content-type checks, the
rate map after POST is exactly the map after the admission call (the
quota is consumed before the body is parsed, even for requests whose
body fails to parse), every error response issued after admission carries
the rate headers computed at admission time, a parse failure still
answers 500 with those headers, and an admitted call stores count one or
the prior count plus one. -/
theorem c10_admission_invariants (l w : Int) (k : Bool) (req : ReqModel) (st : RateState)
    (hOg : originRejects req = false) (hCt : contentTypeOk req.contentType = true) :
    (POSTmodel l w k req st).2
      = (applyRateLimit l w st (getClientId req.forwardedFor req.ip) req.now).2 ∧
    (∀ (status : Nat) (code msg : Str) (rh : RateHeaders) (fetched : Option Payload),
      (POSTmodel l w k req st).1 = .failedResponse status code msg rh fetched →
      ∃ limit remaining resetSeconds,
        (applyRateLimit l w st (getClientId req.forwardedFor req.ip) req.now).1
          = .allowed limit remaining resetSeconds ∧
        rh = mkRateHeaders limit remaining resetSeconds) ∧
    (∀ limit remaining resetSeconds : Int,
      (applyRateLimit l w st (getClientId req.forwardedFor req.ip) req.now).1
        = .allowed limit remaining resetSeconds →
      req.body = none →
      (POSTmodel l w k req st).1
        = .failedResponse 500 "internal_server_error".data
            "Error interno del servidor".data (mkRateHeaders limit remaining resetSeconds) none) ∧
    (∀ (limit remaining resetSeconds : Int) (e : RateEntry),
      (applyRateLimit l w st (getClientId req.forwardedFor req.ip) req.now).1
        = .allowed limit remaining resetSeconds →
      (applyRateLimit l w st (getClientId req.forwardedFor req.ip) req.now).2
        (getClientId req.forwardedFor req.ip) = some e →
      (e.count = 1 ∧ e.resetAt = req.now + (if 0 < w then w else 60000)) ∨
      (∃ e0, cleanupRateState req.now st (getClientId req.forwardedFor req.ip) = some e0 ∧
        req.now < e0.resetAt ∧ e.count = e0.count + 1 ∧ e.resetAt = e0.resetAt)) := by
  have hsplit : POSTmodel l w k req st
      = (match (applyRateLimit l w st (getClientId req.forwardedFor req.ip) req.now).1 with
         | .rejected limit retryAfterSeconds resetSeconds =>
           (.rateLimited limit retryAfterSeconds resetSeconds,
            (applyRateLimit l w st (getClientId req.forwardedFor req.ip) req.now).2)
         | .allowed limit remaining resetSeconds =>
           (processRequest k req.upstream req.body (mkRateHeaders limit remaining resetSeconds),
            (applyRateLimit l w st (getClientId req.forwardedFor req.ip) req.now).2)) := by
    unfold POSTmodel
    rw [if_neg (by simp [hOg]), if_neg (by simp [hCt])]
  refine ⟨?_, ?_, ?_, ?_⟩
  · rw [hsplit]
    split <;> rfl
  · intro status code msg rh fetched h
    rw [hsplit] at h
    cases hrl : (applyRateLimit l w st (getClientId req.forwardedFor req.ip) req.now).1 with
    | rejected a b c =>
      rw [hrl] at h
      cases h
    | allowed limit remaining resetSeconds =>
      rw [hrl] at h
      exact ⟨limit, remaining, resetSeconds, rfl,
        (processRequest_rh k req.upstream req.body _ status code msg rh fetched h).symm ▸ rfl⟩
  · intro limit remaining resetSeconds hrl hbody
    rw [hsplit, hrl]
    simp only [processRequest, hbody]
  · intro limit remaining resetSeconds e hrl hst
    exact applyRateLimit_consume l w st _ req.now limit remaining resetSeconds e hrl hst

/-- C10 witness: a parse-failing request still consumes the quota and the
final map equals the admission map. -/
theorem c10_witness :
    (POSTmodel 10 60000 true badBodyReq emptyRS).2
      = (applyRateLimit 10 60000 emptyRS
          (getClientId badBodyReq.forwardedFor badBodyReq.ip) badBodyReq.now).2 :=
  (c10_admission_invariants 10 60000 true badBodyReq emptyRS (by decide) (by decide)).1

/-- C8 counterexample: the detail string LOW lies outside the enumerated
set, yet coerceMessage keeps low rather than normalizing to auto, because
normalizeDetail lower-cases before the lookup; this contradicts the claim
that every out-of-set detail value yields auto. -/
theorem c8_counterexample :
    "LOW".data ∉ ["auto".data, "low".data, "high".data] ∧
    coerceMessage (.msg { role := some "user".data
                          content := .parts [.imagePart (some
                            { url := some "https://example.com/a.png".data,
                              detail := some "LOW".data })] })
      = .ok { role := .user
              content := .parts [.image "https://example.com/a.png".data .low] } ∧
    DetailLevel.low ≠ DetailLevel.auto :=
  ⟨by decide, by decide, by decide⟩

/-- C8 amended: a missing or empty detail value, or one whose lower-cased
form is outside the enumerated set, normalizes to auto without failing;
a value whose lower-cased form is in the set is mapped to that member
(values already in the set are kept as given), and the detail value never
makes coerceMessage fail. -/
theorem c8_detail_leniency :
    normalizeDetail none = .auto ∧
    normalizeDetail (some []) = .auto ∧
    (∀ s : Str, lowerStr s ∉ ["auto".data, "low".data, "high".data] →
      normalizeDetail (some s) = .auto) ∧
    (normalizeDetail (some "auto".data) = .auto ∧
     normalizeDetail (some "low".data) = .low ∧
     normalizeDetail (some "high".data) = .high) ∧
    (∀ d : Option Str,
      coerceMessage (.msg { role := some "user".data
                            content := .parts [.imagePart (some
                              { url := some "https://example.com/a.png".data,
                                detail := d })] })
      = .ok { role := .user
              content := .parts [.image "https://example.com/a.png".data (normalizeDetail d)] }) := by
  refine ⟨rfl, rfl, ?_, ⟨by decide, by decide, by decide⟩, fun d => rfl⟩
  intro s hnm
  by_cases hempty : s = []
  · simp [normalizeDetail, hempty]
  · have h1 : lowerStr s ≠ "auto".data := fun h => hnm (by simp [h])
    have h2 : lowerStr s ≠ "low".data := fun h => hnm (by simp [h])
    have h3 : lowerStr s ≠ "high".data := fun h => hnm (by simp [h])
    simp [normalizeDetail, hempty, h1, h2, h3]

/-- C8 witness: the unrecognized detail string ultra normalizes to
auto. -/
theorem c8_witness : normalizeDetail (some "ultra".data) = .auto :=
  c8_detail_leniency.2.2.1 "ultra".data (by decide)

/-- A successful head lookup is a member. -/
theorem head?_mem_of {α : Type} (l : List α) (c : α) (h : l.head? = some c) : c ∈ l := by
  cases l with
  | nil => cases h
  | cons x xs =>
    rw [List.head?_cons] at h
    cases h
    exact List.mem_cons_self _ _

/-- A successful last lookup is a member. -/
theorem getLast?_mem_of {α : Type} (l : List α) (c : α) (h : l.getLast? = some c) : c ∈ l := by
  rw [← List.head?_reverse] at h
  exact List.mem_reverse.mp (head?_mem_of _ _ h)

/-- dropWhile strips nothing when the first character fails the
predicate. -/
theorem dropWhile_of_head (p : Char → Bool) (s : Str)
    (h : ∀ c, s.head? = some c → p c = false) : s.dropWhile p = s := by
  cases s with
  | nil => rfl
  | cons a l =>
    rw [List.dropWhile_cons, h a rfl]
    simp

/-- A string whose first and last characters are not whitespace is fixed
by the JavaScript trim. -/
theorem jsTrim_eq_self (s : Str)
    (hhead : ∀ c, s.head? = some c → isJsSpace c = false)
    (hlast : ∀ c, s.getLast? = some c → isJsSpace c = false) :
    jsTrim s = s := by
  unfold jsTrim
  rw [dropWhile_of_head isJsSpace s hhead,
    dropWhile_of_head isJsSpace s.reverse
      (fun c hc => hlast c (by rwa [List.head?_reverse] at hc))]
  exact List.reverse_reverse s

/-- Dropping a literal from a string that starts with it. -/
theorem dropLead_append (w rest : Str) : dropLead w (w ++ rest) = some rest := by
  induction w with
  | nil => rfl
  | cons a as ih => simp [dropLead, ih]

/-- The png data URL is never the empty string. -/
theorem pngUrlOf_ne_nil (b64 : Str) : pngUrlOf b64 ≠ [] := by
  intro h
  have h2 : ('d' :: ("ata:image/png;base64,".data ++ b64)) = ([] : Str) := by
    rw [← h]; rfl
  cases h2

/-- The trim fixes a png data URL with a whitespace-free payload. -/
theorem jsTrim_pngUrl (b64 : Str) (hne : b64 ≠ [])
    (hsp : b64.all (fun c => !isJsSpace c) = true) :
    jsTrim (pngUrlOf b64) = pngUrlOf b64 := by
  apply jsTrim_eq_self
  · intro c hc
    have h2 : some 'd' = some c := by rw [← hc]; rfl
    cases h2
    decide
  · intro c hc
    have h3 : (pngUrlOf b64).getLast? = b64.getLast? := by
      unfold pngUrlOf
      exact List.getLast?_append_of_ne_nil _ hne
    rw [h3] at hc
    have h4 := List.all_eq_true.mp hsp c (getLast?_mem_of b64 c hc)
    simpa using h4

/-- Parsing the png data URL built from a lower-case valid payload. -/
theorem getDataUrlPayload_png (b64 : Str) (hne : b64 ≠ []) (hall : b64.all isB64Char = true)
    (hlow : lowerStr b64 = b64) :
    getDataUrlPayload (pngUrlOf b64)
      = some { mime := "png".data, bytes := dataUrlBytes b64 } := by
  have hlow2 : List.map jsToLower b64 = b64 := hlow
  have hlowurl : lowerStr (pngUrlOf b64)
      = ("data:image/".data ++ "png".data ++ ";base64,".data) ++ b64 := by
    unfold lowerStr pngUrlOf
    rw [List.map_append, hlow2,
      show List.map jsToLower "data:image/png;base64,".data
        = "data:image/".data ++ "png".data ++ ";base64,".data from by decide]
  simp only [getDataUrlPayload]
  rw [hlowurl, dropLead_append]
  simp [hne, hall]

/-- Coercion of a text part that sanitizes to itself. -/
theorem coercePart_text (t : Str) (hs : sanitizeTextSegment t = t) (hne : t ≠ [])
    (hlen : t.length ≤ 8000) : coercePart (.textPart t) = .ok (.text t) := by
  have e2 : ¬(maxTextChars < t.length) := by unfold maxTextChars; omega
  simp only [coercePart]
  simp [hs, hne, e2]

/-- Coercion of a data-URL image part within the byte ceiling. -/
theorem coercePart_dataImage (b64 : Str) (d : Option Str) (hne : b64 ≠ [])
    (hall : b64.all isB64Char = true) (hsp : b64.all (fun c => !isJsSpace c) = true)
    (hlow : lowerStr b64 = b64) (hbytes : dataUrlBytes b64 ≤ maxDataUrlBytes) :
    coercePart (.imagePart (some { url := some (pngUrlOf b64), detail := d }))
      = .ok (.image (pngUrlOf b64) (normalizeDetail d)) := by
  have htrim := jsTrim_pngUrl b64 hne hsp
  have hpay := getDataUrlPayload_png b64 hne hall hlow
  simp only [coercePart]
  rw [htrim, if_neg (pngUrlOf_ne_nil b64),
    if_pos (show (dropLead "data:".data (pngUrlOf b64)).isSome = true from rfl)]
  simp only [hpay]
  rw [if_neg (by omega)]

/-- Coercion of a data-URL image part beyond the byte ceiling fails with
the size-specific error. -/
theorem coercePart_dataImage_big (b64 : Str) (d : Option Str) (hne : b64 ≠ [])
    (hall : b64.all isB64Char = true) (hsp : b64.all (fun c => !isJsSpace c) = true)
    (hlow : lowerStr b64 = b64) (hbytes : maxDataUrlBytes < dataUrlBytes b64) :
    coercePart (.imagePart (some { url := some (pngUrlOf b64), detail := d }))
      = .error "La imagen adjunta supera el límite de 20 MiB".data := by
  have htrim := jsTrim_pngUrl b64 hne hsp
  have hpay := getDataUrlPayload_png b64 hne hall hlow
  simp only [coercePart]
  rw [htrim, if_neg (pngUrlOf_ne_nil b64),
    if_pos (show (dropLead "data:".data (pngUrlOf b64)).isSome = true from rfl)]
  simp only [hpay]
  rw [if_pos hbytes]

/-- Coercion of an https image part with a whitespace-free nonempty
host part. -/
theorem coercePart_httpsImage (host : Str) (d : Option Str) (hne : host ≠ [])
    (hsp : host.all (fun c => !isJsSpace c) = true) :
    coercePart (.imagePart (some { url := some ("https://".data ++ host), detail := d }))
      = .ok (.image ("https://".data ++ host) (normalizeDetail d)) := by
  obtain ⟨a, t, rfl⟩ : ∃ a t, host = a :: t := by
    cases host with
    | nil => exact absurd rfl hne
    | cons a t => exact ⟨a, t, rfl⟩
  have htrim : jsTrim ("https://".data ++ (a :: t)) = "https://".data ++ (a :: t) := by
    apply jsTrim_eq_self
    · intro c hc
      have h2 : some 'h' = some c := by rw [← hc]; rfl
      cases h2
      decide
    · intro c hc
      rw [List.getLast?_append_of_ne_nil _ (by simp)] at hc
      have h4 := List.all_eq_true.mp hsp c (getLast?_mem_of _ c hc)
      simpa using h4
  have hhttp : isHttpUrl ("https://".data ++ (a :: t)) = true := by
    unfold isHttpUrl lowerStr
    rw [List.map_append,
      show List.map jsToLower "https://".data = "https://".data from by decide,
      show List.map jsToLower (a :: t) = jsToLower a :: List.map jsToLower t from rfl,
      dropLead_append,
      show dropLead "http://".data
        ("https://".data ++ (jsToLower a :: List.map jsToLower t)) = none from rfl]
    rfl
  simp only [coercePart]
  rw [htrim, if_neg (by simp),
    if_neg (by rw [show dropLead "data:".data ("https://".data ++ (a :: t)) = none from rfl]
               simp),
    if_neg (by rw [hhttp]; simp)]

/-- Coercion of a user message whose parts all coerce. -/
theorem coerceMessage_user_parts (ps : List RawPart) (mps : List MessagePart)
    (h : coercePartList ps = .ok mps) (hne : mps ≠ []) :
    coerceMessage (.msg { role := some "user".data, content := .parts ps })
      = .ok { role := .user, content := .parts mps } := by
  have hrole : coerceMessage (.msg { role := some "user".data, content := .parts ps })
      = (match coercePartList ps with
         | .error e => .error e
         | .ok parts =>
           if parts = [] then .error "Mensaje inválido".data
           else .ok { role := Role.user, content := .parts parts }) := rfl
  rw [hrole]
  simp [h, hne]

/-- Coercion of a user message propagates the first part error. -/
theorem coerceMessage_user_parts_err (ps : List RawPart) (e : Str)
    (h : coercePartList ps = .error e) :
    coerceMessage (.msg { role := some "user".data, content := .parts ps }) = .error e := by
  have hrole : coerceMessage (.msg { role := some "user".data, content := .parts ps })
      = (match coercePartList ps with
         | .error e2 => .error e2
         | .ok parts =>
           if parts = [] then .error "Mensaje inválido".data
           else .ok { role := Role.user, content := .parts parts }) := rfl
  rw [hrole]
  simp [h]

/-- The part list coercion on a cons of two successes. -/
theorem coercePartList_cons (p : RawPart) (ps : List RawPart) (mp : MessagePart)
    (mps : List MessagePart) (h1 : coercePart p = .ok mp)
    (h2 : coercePartList ps = .ok mps) :
    coercePartList (p :: ps) = .ok (mp :: mps) := by
  unfold coercePartList
  rw [h1, h2]

/-- The part list coercion stops at the first failing part. -/
theorem coercePartList_cons_err (p : RawPart) (ps : List RawPart) (e : Str)
    (h : coercePart p = .error e) : coercePartList (p :: ps) = .error e := by
  unfold coercePartList
  rw [h]

/-- C7: a valid multipart message of a text part, a data image within the
byte ceiling and an https image coerces successfully, preserving part
order and field values; and a message whose image part carries a data URL
whose decoded byte count (whitespace-stripped base64 length over four
times three minus padding) exceeds twenty mebibytes fails with the
size-specific error. -/
theorem c7_message_coercion :
    (∀ (t b64 host : Str) (d1 d2 : Option Str),
      sanitizeTextSegment t = t → t ≠ [] → t.length ≤ 8000 →
      b64 ≠ [] → b64.all isB64Char = true → b64.all (fun c => !isJsSpace c) = true →
      lowerStr b64 = b64 → dataUrlBytes b64 ≤ maxDataUrlBytes →
      host ≠ [] → host.all (fun c => !isJsSpace c) = true →
      coerceMessage (.msg { role := some "user".data
                            content := .parts [.textPart t,
                              .imagePart (some { url := some (pngUrlOf b64), detail := d1 }),
                              .imagePart (some { url := some ("https://".data ++ host),
                                                 detail := d2 })] })
      = .ok { role := .user
              content := .parts [.text t,
                .image (pngUrlOf b64) (normalizeDetail d1),
                .image ("https://".data ++ host) (normalizeDetail d2)] }) ∧
    (∀ (b64 : Str) (d : Option Str) (rest : List RawPart),
      b64 ≠ [] → b64.all isB64Char = true → b64.all (fun c => !isJsSpace c) = true →
      lowerStr b64 = b64 → maxDataUrlBytes < dataUrlBytes b64 →
      coerceMessage (.msg { role := some "user".data
                            content := .parts (.imagePart (some { url := some (pngUrlOf b64),
                                                                  detail := d }) :: rest) })
      = .error "La imagen adjunta supera el límite de 20 MiB".data) := by
  constructor
  · intro t b64 host d1 d2 hs hneT hlenT hneB hallB hspB hlowB hbytes hneH hspH
    apply coerceMessage_user_parts
    · exact coercePartList_cons _ _ _ _ (coercePart_text t hs hneT hlenT)
        (coercePartList_cons _ _ _ _ (coercePart_dataImage b64 d1 hneB hallB hspB hlowB hbytes)
          (coercePartList_cons _ _ _ _ (coercePart_httpsImage host d2 hneH hspH) rfl))
    · simp
  · intro b64 d rest hneB hallB hspB hlowB hbytes
    apply coerceMessage_user_parts_err
    exact coercePartList_cons_err _ _ _
      (coercePart_dataImage_big b64 d hneB hallB hspB hlowB hbytes)

/-- A positive replicate is nonempty. -/
theorem replicate_pos_ne_nil (n : Nat) (c : Char) (h : 0 < n) : List.replicate n c ≠ [] := by
  cases n with
  | zero => omega
  | succ m => rw [List.replicate_succ]; exact List.cons_ne_nil _ _

/-- A replicated character satisfying the predicate satisfies all. -/
theorem all_replicate_of (n : Nat) (c : Char) (p : Char → Bool) (h : p c = true) :
    (List.replicate n c).all p = true := by
  induction n with
  | zero => rfl
  | succ m ih => simp [List.replicate_succ, ih, h]

/-- Filtering keeps a replicated character that satisfies the
predicate. -/
theorem filter_replicate_of (n : Nat) (c : Char) (p : Char → Bool) (h : p c = true) :
    (List.replicate n c).filter p = List.replicate n c := by
  induction n with
  | zero => rfl
  | succ m ih => simp [List.replicate_succ, List.filter_cons, h, ih]

/-- Lower-casing fixes a replicated lower-case letter. -/
theorem lowerStr_replicate_a (n : Nat) :
    lowerStr (List.replicate n 'a') = List.replicate n 'a' := by
  unfold lowerStr
  rw [List.map_replicate, show jsToLower 'a' = 'a' from by decide]

/-- A replicated non-equals character carries no base64 padding. -/
theorem b64Padding_replicate (n : Nat) (c : Char) (hne : c ≠ '=') :
    b64Padding (List.replicate n c) = 0 := by
  unfold b64Padding
  rw [List.reverse_replicate]
  cases n with
  | zero => rfl
  | succ m =>
    cases m with
    | zero => simp [List.replicate_succ, hne]
    | succ k => simp [List.replicate_succ, hne]

/-- Byte count of a replicated whitespace-free, padding-free payload. -/
theorem dataUrlBytes_replicate (n : Nat) (c : Char) (hns : isJsSpace c = false)
    (hne : c ≠ '=') :
    dataUrlBytes (List.replicate n c) = ((n : Int) / 4) * 3 := by
  simp only [dataUrlBytes]
  rw [filter_replicate_of n c _ (by simp [hns]),
    b64Padding_replicate n c hne, List.length_replicate]
  simp

/-- C7 witness: a concrete valid multipart message coerces with order and
values preserved, and a data URL of twenty-seven million base64
characters (decoding to one byte over the ceiling) fails with the
size-specific error. -/
theorem c7_witness :
    coerceMessage (.msg { role := some "user".data
                          content := .parts [.textPart "hola".data,
                            .imagePart (some { url := some (pngUrlOf "abc=".data),
                                               detail := some "low".data }),
                            .imagePart (some
                              { url := some ("https://".data ++ "example.com/a.png".data),
                                detail := some "ultra".data })] })
      = .ok { role := .user
              content := .parts [.text "hola".data,
                .image (pngUrlOf "abc=".data) .low,
                .image ("https://".data ++ "example.com/a.png".data) .auto] } ∧
    coerceMessage (.msg { role := some "user".data
                          content := .parts [.imagePart (some
                            { url := some (pngUrlOf (List.replicate 27962028 'a')),
                              detail := none })] })
      = .error "La imagen adjunta supera el límite de 20 MiB".data := by
  constructor
  · have e1 : normalizeDetail (some "low".data) = .low := by decide
    have e2 : normalizeDetail (some "ultra".data) = .auto := by decide
    have h := c7_message_coercion.1 "hola".data "abc=".data "example.com/a.png".data
      (some "low".data) (some "ultra".data) (by decide) (by decide) (by decide) (by decide)
      (by decide) (by decide) (by decide) (by decide) (by decide) (by decide)
    rw [e1, e2] at h
    exact h
  · exact c7_message_coercion.2 (List.replicate 27962028 'a') none []
      (replicate_pos_ne_nil 27962028 'a' (by norm_num))
      (all_replicate_of _ _ _ (by decide))
      (all_replicate_of _ _ _ (by decide))
      (lowerStr_replicate_a _)
      (by rw [dataUrlBytes_replicate 27962028 'a' (by decide) (by decide)]; decide)
